import Mathlib

/-!
Verification of the hydrocarbon scraping orchestrator's Postgres store layer
and feed API against its specification.  The store (`pg.DB`) is embedded as a
pure state type `Store`; each SQL-backed method becomes a function from a
store (plus the database clock, `now`) to an updated store and a result.
-/

namespace Hydrocarbon

/-- The `scrape_state` enum: `WAITING | RUNNING | SUCCESS | ERRORED`. -/
inductive ScrapeState where
  | waiting
  | running
  | success
  | errored
deriving Repr, DecidableEq

/-- A row of the `scrapes` table. -/
structure ScrapeRow where
  id : Nat
  feedId : Nat
  plugin : String
  config : String
  scheduledStartAt : Int
  startedAt : Option Int
  endedAt : Option Int
  state : ScrapeState
  errors : List String
  totalDatums : Nat
  totalRetries : Nat
  totalTasks : Nat
deriving Repr, DecidableEq

/-- A row of the `posts` table.  `body` holds the compressed body text. -/
structure PostRow where
  id : Nat
  feedId : Nat
  contentHash : String
  title : String
  author : String
  body : String
  url : String
  postedAt : Int
  createdAt : Int
deriving Repr, DecidableEq

/-- A row of the `feeds` table. -/
structure FeedRow where
  id : Nat
  title : String
  plugin : String
  url : String
deriving Repr, DecidableEq

/-- A row of the `sessions` table (only the fields the claims need). -/
structure SessionRow where
  key : String
  userId : Nat
deriving Repr, DecidableEq

/-- A row of the `feed_folders` many-to-many table. -/
structure FeedFolderRow where
  userId : Nat
  folderId : Nat
  feedId : Nat
deriving Repr, DecidableEq

/-- The durable state behind `pg.DB`.  `nextScrapeId` / `nextPostId` model the
database's id generation for freshly inserted rows. -/
structure Store where
  feeds : List FeedRow
  scrapes : List ScrapeRow
  posts : List PostRow
  sessions : List SessionRow
  feedFolders : List FeedFolderRow
  nextScrapeId : Nat
  nextPostId : Nat
deriving Repr, DecidableEq

/-- The claimability test of `DB.StartScrapes`' SELECT:
`scheduled_start_at <= now() AND state = 'WAITING' AND cardinality(errors) < 3`. -/
def claimable (now : Int) (s : ScrapeRow) : Bool :=
  decide (s.scheduledStartAt ≤ now) && (s.state == ScrapeState.waiting)
    && decide (s.errors.length < 3)

/-- The row update applied by `DB.StartScrapes`' UPDATE:
`SET state = 'RUNNING', started_at = now()`. -/
def claimRow (now : Int) (s : ScrapeRow) : ScrapeRow :=
  { s with state := ScrapeState.running, startedAt := some now }

/-- `DB.StartScrapes`: select up to `limit` claimable scrapes, transition each
to RUNNING with `started_at = now()`, and return the updated rows. -/
def startScrapes (st : Store) (now : Int) (limit : Nat) : Store × List ScrapeRow :=
  let sel := (st.scrapes.filter (claimable now)).take limit
  let ids := sel.map (fun s => s.id)
  let st' := { st with scrapes := st.scrapes.map (fun s =>
      if s.id ∈ ids then claimRow now s else s) }
  (st', sel.map (claimRow now))

/-- `DB.EndScrape`: marks the scrape SUCCESS (the SQL hard-codes
`state = 'SUCCESS'`), sets `ended_at = now()` and the three counters; scanning
the RETURNING row fails when no row matches the id. -/
def endScrape (st : Store) (now : Int) (sid : Nat) (datums retries tasks : Nat) :
    Store × Except String Unit :=
  if st.scrapes.any (fun s => s.id == sid) then
    ({ st with scrapes := st.scrapes.map (fun s =>
        if s.id == sid then
          { s with
            state := ScrapeState.success
            endedAt := some now
            totalDatums := datums
            totalRetries := retries
            totalTasks := tasks }
        else s) }, Except.ok ())
  else (st, Except.error "sql: no rows in result set")

/-- `DB.ErrorScrape`: the body ignores both arguments and immediately returns
nil, leaving the database untouched. -/
def errorScrape (st : Store) (_sid : Nat) (_e : String) : Store × Except String Unit :=
  (st, Except.ok ())

/-- The in-memory `hydrocarbon.Post` fact emitted by plugin handlers
(the fields `DB.Write` reads). -/
structure Post where
  title : String
  author : String
  body : String
  originalURL : String
  postedAt : Int
deriving Repr, DecidableEq

/-- Modelled from the spec: `hydrocarbon.Post.ContentHash` is not under src/;
the spec defines the content hash as a stable digest over
`title | author | body | url`. -/
def Post.ContentHash (p : Post) : String :=
  p.title ++ "|" ++ p.author ++ "|" ++ p.body ++ "|" ++ p.originalURL

/-- A fact handed to the fact writer.  The Go signature takes an empty
interface; the only recognized concrete fact is `*hydrocarbon.Post`, anything
else is rejected. -/
inductive Fact where
  | post (p : Post)
  | other (description : String)
deriving Repr, DecidableEq

/-- Modelled from the spec: `compressText` is not under src/; the spec treats
the codec as an opaque deterministic text compression, so it is modelled as
the identity codec. -/
def compressText (s : String) : String := s

/-- The INSERT of `DB.Write`: resolves `feed_id` via the scrape (a missing
scrape row makes the NOT NULL insert fail; the schema is modelled from the
spec here), and `ON CONFLICT (url) DO UPDATE` overwrites title, author, body
and content_hash of the row holding that url. -/
def writePost (st : Store) (now : Int) (scrapeId : Nat) (p : Post) (h : String) :
    Store × Except String Unit :=
  match st.scrapes.find? (fun s => s.id == scrapeId) with
  | none => (st, Except.error "null value in column feed_id")
  | some sc =>
    if st.posts.any (fun q => q.url == p.originalURL) then
      ({ st with posts := st.posts.map (fun q =>
          if q.url == p.originalURL then
            { q with
              title := p.title
              author := p.author
              body := compressText p.body
              contentHash := h }
          else q) }, Except.ok ())
    else
      ({ st with
          posts := st.posts ++ [{
            id := st.nextPostId
            feedId := sc.feedId
            contentHash := h
            title := p.title
            author := p.author
            body := compressText p.body
            url := p.originalURL
            postedAt := p.postedAt
            createdAt := now }]
          nextPostId := st.nextPostId + 1 }, Except.ok ())

/-- `DB.Write`: rejects non-Post facts before starting a transaction; then, if
a post with the fact's content hash already exists (the scanned hash is
non-empty), returns success without writing; otherwise runs the insert. -/
def Write (st : Store) (now : Int) (scrapeId : Nat) (f : Fact) :
    Store × Except String Unit :=
  match f with
  | Fact.other _ => (st, Except.error "unable to write non *hydrocarbon.Post struct")
  | Fact.post p =>
    match st.posts.find? (fun q => q.contentHash == p.ContentHash) with
    | some q =>
      if q.contentHash == "" then writePost st now scrapeId p p.ContentHash
      else (st, Except.ok ())
    | none => writePost st now scrapeId p p.ContentHash

/-- A WAITING scrape used in concrete witnesses. -/
def scrapeW : ScrapeRow :=
  { id := 1, feedId := 1, plugin := "fictionpress", config := "cfg",
    scheduledStartAt := 5, startedAt := none, endedAt := none,
    state := ScrapeState.waiting, errors := [], totalDatums := 0,
    totalRetries := 0, totalTasks := 0 }

/-- A store holding a single due WAITING scrape. -/
def storeW : Store :=
  { feeds := [], scrapes := [scrapeW], posts := [], sessions := [],
    feedFolders := [], nextScrapeId := 2, nextPostId := 1 }

/-- A store holding a single RUNNING scrape, used for the `ErrorScrape` bug. -/
def storeRunning : Store :=
  { storeW with scrapes := [{ scrapeW with state := ScrapeState.running }] }

/-- A Post fact used in concrete witnesses. -/
def postW : Post :=
  { title := "A", author := "b", body := "x", originalURL := "https://e.com/1",
    postedAt := 3 }

/-- A stored post sharing `postW`'s url but with a different content hash. -/
def postRowOld : PostRow :=
  { id := 1
    feedId := 1
    contentHash := "old"
    title := "Old"
    author := "o"
    body := "oldbody"
    url := "https://e.com/1"
    postedAt := 1
    createdAt := 1 }

/-- A store where `postW`'s url already exists under another hash. -/
def storeUrl : Store := { storeW with posts := [postRowOld] }

/-- A stored post of a different feed already carrying `postW`'s content hash. -/
def postRowOther : PostRow :=
  { postRowOld with
    id := 2
    feedId := 2
    contentHash := postW.ContentHash
    url := "https://other.com/2" }

/-- A store whose only scrape targets feed 1 while feed 2 already holds the
fact's content hash. -/
def storeDedup : Store := { storeW with posts := [postRowOther] }

/-- `discollect.ScheduleRequest` (the fields the store reads and fills). -/
structure ScheduleRequest where
  feedId : Nat
  plugin : String
  latestScrapes : List ScrapeRow
  latestDatums : List PostRow
deriving Repr, DecidableEq

/-- `discollect.ScrapeSchedule`: a proposed future scrape. -/
structure ScrapeSchedule where
  scheduledStartAt : Int
  config : String
deriving Repr, DecidableEq

/-- One INSERT of `DB.InsertSchedule`:
`ON CONFLICT ON CONSTRAINT scrapes_plugin_scheduled_start_at_config_key DO NOTHING`
skips the insert when a scrape with the same `(plugin, scheduled_start_at,
config)` already exists.  The WAITING default state of a fresh row is modelled
from the spec: the schema migrations are not under src/ and the spec says the
store inserts each schedule as a WAITING scrape. -/
def insertScheduleRow (sr : ScheduleRequest) (s : ScrapeSchedule) (st : Store) : Store :=
  if st.scrapes.any (fun r => r.plugin == sr.plugin
      && r.scheduledStartAt == s.scheduledStartAt && r.config == s.config) then st
  else
    { st with
      scrapes := st.scrapes ++ [{
        id := st.nextScrapeId
        feedId := sr.feedId
        plugin := sr.plugin
        config := s.config
        scheduledStartAt := s.scheduledStartAt
        startedAt := none
        endedAt := none
        state := ScrapeState.waiting
        errors := []
        totalDatums := 0
        totalRetries := 0
        totalTasks := 0 }]
      nextScrapeId := st.nextScrapeId + 1 }

/-- `DB.InsertSchedule`: one conflict-skipping insert per proposed schedule. -/
def InsertSchedule (st : Store) (sr : ScheduleRequest) (ss : List ScrapeSchedule) : Store :=
  ss.foldl (fun acc s => insertScheduleRow sr s acc) st

/-- A schedule request used in concrete witnesses. -/
def schedReqW : ScheduleRequest :=
  { feedId := 1, plugin := "fictionpress", latestScrapes := [], latestDatums := [] }

/-- A proposed schedule used in concrete witnesses. -/
def schedW : ScrapeSchedule := { scheduledStartAt := 50, config := "cfg2" }

/-- Insertion into a descending-by-key sorted list. -/
def insertByDesc {α : Type} (key : α → Int) (x : α) : List α → List α
  | [] => [x]
  | y :: ys => if key y ≤ key x then x :: y :: ys else y :: insertByDesc key x ys

/-- `ORDER BY key DESC` as an insertion sort (the SQL leaves ties unordered,
so any sort by the key is a faithful embedding). -/
def sortByDesc {α : Type} (key : α → Int) : List α → List α
  | [] => []
  | x :: xs => insertByDesc key x (sortByDesc key xs)

/-- The scrapes lateral subquery of `DB.FindMissingSchedules`: the feed's
scrapes ordered by `scheduled_start_at DESC`, `LIMIT 10`. -/
def recentScrapes (st : Store) (fid : Nat) : List ScrapeRow :=
  (sortByDesc (fun s => s.scheduledStartAt)
    (st.scrapes.filter (fun s => s.feedId == fid))).take 10

/-- The posts lateral subquery of `DB.FindMissingSchedules`: the feed's posts
ordered by `posted_at DESC`, `LIMIT 10`. -/
def recentPosts (st : Store) (fid : Nat) : List PostRow :=
  (sortByDesc (fun p => p.postedAt)
    (st.posts.filter (fun p => p.feedId == fid))).take 10

/-- The joined rows for one feed of `DB.FindMissingSchedules`: an inner
lateral join against the recent scrapes, crossed with a left lateral join
against the recent posts (a single null post row when the feed has none). -/
def lateralRows (sc : List ScrapeRow) (ps : List PostRow) :
    List (ScrapeRow × Option PostRow) :=
  if ps.isEmpty then sc.map (fun s => (s, none))
  else sc.flatMap (fun s => ps.map (fun p => (s, some p)))

/-- `DB.FindMissingSchedules`: feeds with no WAITING scrape (the inner lateral
join additionally drops feeds with no scrape at all), each with the jsonb_agg
aggregates over its joined rows: the scrape of every row ordered by
`scheduled_start_at DESC`, and the post of every non-null row ordered by
`created_at DESC` (the `FILTER (WHERE ps.id IS NOT NULL)` clause). -/
def FindMissingSchedules (st : Store) (limit : Nat) : List ScheduleRequest :=
  ((st.feeds.filter (fun f =>
      !(st.scrapes.any (fun s => s.feedId == f.id && s.state == ScrapeState.waiting))
        && st.scrapes.any (fun s => s.feedId == f.id))).take limit).map (fun f =>
    { feedId := f.id
      plugin := f.plugin
      latestScrapes := sortByDesc (fun s => s.scheduledStartAt)
        ((lateralRows (recentScrapes st f.id) (recentPosts st f.id)).map Prod.fst)
      latestDatums := sortByDesc (fun p => p.createdAt)
        ((lateralRows (recentScrapes st f.id) (recentPosts st f.id)).filterMap Prod.snd) })

/-- A feed row used in the FindMissingSchedules scenarios. -/
def feedC7 : FeedRow :=
  { id := 1, title := "f", plugin := "fictionpress", url := "https://e.com" }

/-- An ended scrape of feed 1. -/
def scrapeC7a : ScrapeRow := { scrapeW with state := ScrapeState.success }

/-- A second, later ended scrape of feed 1. -/
def scrapeC7b : ScrapeRow :=
  { scrapeW with id := 2, scheduledStartAt := 6, state := ScrapeState.success }

/-- A store with one feed, two ended scrapes and one post: the lateral join
produces two rows, so the post aggregate holds the single post twice. -/
def storeC7 : Store :=
  { feeds := [feedC7]
    scrapes := [scrapeC7a, scrapeC7b]
    posts := [postRowOld]
    sessions := []
    feedFolders := []
    nextScrapeId := 3
    nextPostId := 2 }

/-- The request `FindMissingSchedules` returns on `storeC7`. -/
def reqC7 : ScheduleRequest :=
  { feedId := 1
    plugin := "fictionpress"
    latestScrapes := [scrapeC7b, scrapeC7a]
    latestDatums := [postRowOld, postRowOld] }

/-- `maxFailedResolutions` from src/feed_api.go. -/
def maxFailedResolutions : Nat := 8

/-- A discollect plugin as the feed API consumes it: a name, an
entrypoint-acceptance test, and a ConfigCreator returning a feed title and an
initial config, or an error. -/
structure Plugin where
  name : String
  accepts : String → Bool
  configCreator : String → Except String (String × String)

/-- Modelled from the spec: `discollect.PluginForEntrypoint` is not under
src/; per the spec it returns the first registered plugin whose validator
accepts the URL and whose name is not blacklisted, and fails otherwise. -/
def pluginForEntrypoint (registry : List Plugin) (url : String)
    (blacklist : List String) : Option Plugin :=
  registry.find? (fun p => p.accepts url && !(blacklist.contains p.name))

/-- The ways `FeedAPI.AddFeed`'s resolution loop can fail (store failures are
out of scope of the claim and modelled as absent). -/
inductive AddFeedError where
  | noPlugin
  | creatorFailed (msg : String)
  | outOfFuel
deriving Repr, DecidableEq

/-- The outcome of `FeedAPI.AddFeed`'s resolution loop. -/
inductive AddFeedResult where
  | existing (plugin : String)
  | created (plugin title : String)
  | failed (e : AddFeedError)
deriving Repr, DecidableEq

/-- The retry loop of `FeedAPI.AddFeed`: resolve a plugin for the URL
excluding blacklisted ones; if the feed already exists report it; on a
ConfigCreator error, return the error if the blacklist has reached
`maxFailedResolutions`, otherwise blacklist the plugin's name and retry.
`fex plugin url` abstracts `CheckIfFeedExists` reporting the feed present;
`fuel` only bounds the recursion and is never exhausted from the top-level
entry point. -/
def addFeedLoop (registry : List Plugin) (fex : String → String → Bool)
    (url : String) (blacklist : List String) : Nat → AddFeedResult
  | 0 => AddFeedResult.failed AddFeedError.outOfFuel
  | fuel + 1 =>
    match pluginForEntrypoint registry url blacklist with
    | none => AddFeedResult.failed AddFeedError.noPlugin
    | some p =>
      if fex p.name url then AddFeedResult.existing p.name
      else
        match p.configCreator url with
        | Except.error m =>
          if blacklist.length = maxFailedResolutions then
            AddFeedResult.failed (AddFeedError.creatorFailed m)
          else addFeedLoop registry fex url (blacklist ++ [p.name]) fuel
        | Except.ok (title, _) => AddFeedResult.created p.name title

/-- `FeedAPI.AddFeed`: the loop entered with an empty blacklist. -/
def AddFeed (registry : List Plugin) (fex : String → String → Bool)
    (url : String) : AddFeedResult :=
  addFeedLoop registry fex url [] (maxFailedResolutions + 1)

/-- A plugin whose config creator always fails. -/
def pluginBad : Plugin :=
  { name := "bad", accepts := fun _ => true,
    configCreator := fun _ => Except.error "cfg fail" }

/-- A plugin whose config creator succeeds. -/
def pluginGood : Plugin :=
  { name := "good", accepts := fun _ => true,
    configCreator := fun u => Except.ok ("Title", u) }

/-- A registry whose first matching plugin's creator fails and whose second
succeeds. -/
def registryW : List Plugin := [pluginBad, pluginGood]

/-- A `CheckIfFeedExists` stub reporting that the feed never pre-exists. -/
def fexNone : String → String → Bool := fun _ _ => false

/-- `DB.CheckIfFeedExists`: looks up a feed by (url, plugin); on no rows it
returns found=false leaving the store untouched; on a hit it inserts a
feed_folders row for the session's user and the supplied folder and returns
the feed with found=true.  A missing session makes the NOT NULL insert fail;
that corner of the schema is modelled from the spec. -/
def CheckIfFeedExists (st : Store) (sessionKey : String) (folderId : Nat)
    (plugin url : String) : Store × Except String (Option FeedRow) :=
  match st.feeds.find? (fun f => f.url == url && f.plugin == plugin) with
  | none => (st, Except.ok none)
  | some f =>
    match st.sessions.find? (fun s => s.key == sessionKey) with
    | none => (st, Except.error "null value in column user_id")
    | some sess =>
      ({ st with feedFolders := st.feedFolders ++
          [{ userId := sess.userId, folderId := folderId, feedId := f.id }] },
        Except.ok (some f))

/-- An existing feed row for the CheckIfFeedExists witness. -/
def feedEx : FeedRow :=
  { id := 7, title := "Existing", plugin := "fictionpress", url := "https://e.com" }

/-- A session row for the CheckIfFeedExists witness. -/
def sessEx : SessionRow := { key := "k", userId := 3 }

/-- A store holding `feedEx` and `sessEx`. -/
def storeC9 : Store :=
  { feeds := [feedEx], scrapes := [], posts := [], sessions := [sessEx],
    feedFolders := [], nextScrapeId := 1, nextPostId := 1 }

/-- Claim C1: `StartScrapes(limit)` returns only scrapes that were WAITING,
due (`scheduled_start_at ≤ now`), and had fewer than 3 recorded errors; every
returned scrape is transitioned to RUNNING with `started_at = now`, and at
most `limit` scrapes are returned. -/
theorem startScrapes_spec (st : Store) (now : Int) (limit : Nat) :
    (startScrapes st now limit).2.length ≤ limit ∧
    (∀ r ∈ (startScrapes st now limit).2,
      r.state = ScrapeState.running ∧ r.startedAt = some now ∧
      ∃ s ∈ st.scrapes, s.id = r.id ∧ s.state = ScrapeState.waiting ∧
        s.scheduledStartAt ≤ now ∧ s.errors.length < 3) ∧
    (∀ r ∈ (startScrapes st now limit).2,
      ∀ s ∈ (startScrapes st now limit).1.scrapes,
        s.id = r.id → s.state = ScrapeState.running ∧ s.startedAt = some now) := by
  refine ⟨?_, ?_, ?_⟩
  · simp only [startScrapes, List.length_map]
    exact List.length_take_le _ _
  · intro r hr
    simp only [startScrapes, List.mem_map] at hr
    obtain ⟨s, hs, rfl⟩ := hr
    have hsel : s ∈ st.scrapes.filter (claimable now) := List.mem_of_mem_take hs
    rw [List.mem_filter] at hsel
    obtain ⟨hmem, hcl⟩ := hsel
    simp only [claimable, Bool.and_eq_true, decide_eq_true_eq, beq_iff_eq] at hcl
    exact ⟨rfl, rfl, s, hmem, rfl, hcl.1.2, hcl.1.1, hcl.2⟩
  · intro r hr s' hs' hid
    simp only [startScrapes, List.mem_map] at hr hs'
    obtain ⟨s, hs, rfl⟩ := hr
    obtain ⟨s0, _, rfl⟩ := hs'
    by_cases hin : ∃ a ∈ (st.scrapes.filter (claimable now)).take limit, a.id = s0.id
    · rw [if_pos hin]
      exact ⟨rfl, rfl⟩
    · exfalso
      rw [if_neg hin] at hid
      exact hin ⟨s, hs, hid.symm⟩

/-- Closed witness for C1: on a concrete store the claimed scrape is returned
and satisfies the selection conditions. -/
theorem startScrapes_spec_witness :
    claimRow 10 scrapeW ∈ (startScrapes storeW 10 5).2 ∧
    ∃ s ∈ storeW.scrapes, s.id = (claimRow 10 scrapeW).id ∧
      s.state = ScrapeState.waiting ∧ s.scheduledStartAt ≤ 10 ∧
      s.errors.length < 3 :=
  ⟨by decide,
   ((startScrapes_spec storeW 10 5).2.1 (claimRow 10 scrapeW) (by decide)).2.2⟩

/-- Claim C2 (code bug): `ErrorScrape` never performs the claimed terminal
transition: on a concrete store with one RUNNING scrape it returns success and
leaves the store unchanged, so the scrape is neither ERRORED nor carries the
reported error. -/
theorem errorScrape_noop :
    errorScrape storeRunning 1 "boom" = (storeRunning, Except.ok ()) ∧
    ((errorScrape storeRunning 1 "boom").1.scrapes.all
      (fun s => s.state == ScrapeState.running && s.errors.isEmpty)) = true :=
  ⟨rfl, by decide⟩

/-- The content hash is never the empty string (it contains separators), so
`DB.Write`'s scanned-hash-nonempty check always fires on a hit. -/
theorem contentHash_ne_empty (p : Post) : p.ContentHash ≠ "" := by
  intro hEq
  have h2 := congrArg String.length hEq
  have hbar : ("|" : String).length = 1 := rfl
  have hnil : ("" : String).length = 0 := rfl
  simp only [Post.ContentHash, String.length_append, hbar, hnil] at h2
  omega

/-- Helper: when some stored post already carries the fact's content hash,
`Write` is a successful no-op. -/
theorem write_skips_when_hash_present (st : Store) (now : Int) (sid : Nat) (p : Post)
    (h : ∃ q ∈ st.posts, q.contentHash = p.ContentHash) :
    Write st now sid (Fact.post p) = (st, Except.ok ()) := by
  obtain ⟨q, hq, hh⟩ := h
  have hne : (p.ContentHash == "") = false := by
    simpa using contentHash_ne_empty p
  simp only [Write]
  split
  · next r heq =>
    have hr := List.find?_some heq
    simp only [beq_iff_eq] at hr
    rw [hr, hne]
    simp
  · next heq =>
    exfalso
    rw [List.find?_eq_none] at heq
    exact absurd (by simpa using hh) (by simpa using heq q hq)

/-- Helper: a successful `writePost` leaves a post carrying hash `h` in the
store (either the refreshed conflicting row or the freshly inserted one). -/
theorem writePost_hash_mem (st : Store) (now : Int) (sid : Nat) (p : Post) (h : String)
    (hsc : (st.scrapes.find? (fun s => s.id == sid)).isSome = true) :
    ∃ q ∈ (writePost st now sid p h).1.posts, q.contentHash = h := by
  unfold writePost
  split
  · next heq =>
    rw [heq] at hsc
    simp at hsc
  · next sc heq =>
    split
    · next hany =>
      obtain ⟨q0, hq0, hu⟩ := List.any_eq_true.mp hany
      exact ⟨_, List.mem_map_of_mem _ hq0, by simp [hu]⟩
    · next hany =>
      exact ⟨_, List.mem_append_right _ (List.mem_singleton_self _), rfl⟩

/-- Claim C3: writing the same Post fact twice leaves the store exactly as a
single write does, and the second call returns success (it finds the content
hash already present). -/
theorem write_idempotent (st : Store) (now1 now2 : Int) (sid : Nat) (p : Post)
    (hsc : (st.scrapes.find? (fun s => s.id == sid)).isSome = true) :
    (Write (Write st now1 sid (Fact.post p)).1 now2 sid (Fact.post p)).1
        = (Write st now1 sid (Fact.post p)).1 ∧
    (Write (Write st now1 sid (Fact.post p)).1 now2 sid (Fact.post p)).2
        = Except.ok () := by
  by_cases hpre : ∃ q ∈ st.posts, q.contentHash = p.ContentHash
  · have h1 := write_skips_when_hash_present st now1 sid p hpre
    have h2 := write_skips_when_hash_present st now2 sid p hpre
    rw [h1]
    show (Write st now2 sid (Fact.post p)).1 = st ∧
      (Write st now2 sid (Fact.post p)).2 = Except.ok ()
    rw [h2]
    exact ⟨rfl, rfl⟩
  · have hfind : st.posts.find? (fun q => q.contentHash == p.ContentHash) = none := by
      rw [List.find?_eq_none]
      intro x hx
      simp only [beq_iff_eq]
      exact fun hh => hpre ⟨x, hx, hh⟩
    have hfirst : Write st now1 sid (Fact.post p) = writePost st now1 sid p p.ContentHash := by
      simp only [Write]
      rw [hfind]
    have hmem := writePost_hash_mem st now1 sid p p.ContentHash hsc
    have hskip := write_skips_when_hash_present
      (writePost st now1 sid p p.ContentHash).1 now2 sid p hmem
    rw [hfirst, hskip]
    exact ⟨rfl, rfl⟩

/-- Closed witness for C3: a double write of a concrete Post on a concrete
store equals the single write, and the second call succeeds. -/
theorem write_idempotent_witness :
    (Write (Write storeW 20 1 (Fact.post postW)).1 21 1 (Fact.post postW)).1
        = (Write storeW 20 1 (Fact.post postW)).1 ∧
    (Write (Write storeW 20 1 (Fact.post postW)).1 21 1 (Fact.post postW)).2
        = Except.ok () :=
  write_idempotent storeW 20 21 1 postW (by decide)

/-- Claim C4: when the fact's content hash is new but its url collides with an
existing post, `Write` creates no new row; the conflicting row's title,
author, body and content_hash are overwritten with the new values. -/
theorem write_url_conflict_refresh (st : Store) (now : Int) (sid : Nat) (p : Post)
    (hpre : ∀ q ∈ st.posts, q.contentHash ≠ p.ContentHash)
    (hsc : (st.scrapes.find? (fun s => s.id == sid)).isSome = true)
    (hurl : st.posts.any (fun q => q.url == p.originalURL) = true) :
    (Write st now sid (Fact.post p)).1.posts
        = st.posts.map (fun q => if q.url == p.originalURL then
            { q with
              title := p.title
              author := p.author
              body := compressText p.body
              contentHash := p.ContentHash }
          else q) ∧
    (Write st now sid (Fact.post p)).1.posts.length = st.posts.length ∧
    (Write st now sid (Fact.post p)).2 = Except.ok () := by
  have hfind : st.posts.find? (fun q => q.contentHash == p.ContentHash) = none := by
    rw [List.find?_eq_none]
    intro x hx
    simp only [beq_iff_eq]
    exact hpre x hx
  have hfirst : Write st now sid (Fact.post p) = writePost st now sid p p.ContentHash := by
    simp only [Write]
    rw [hfind]
  rw [hfirst]
  unfold writePost
  split
  · next heq =>
    rw [heq] at hsc
    simp at hsc
  · next sc heq =>
    rw [if_pos hurl]
    exact ⟨rfl, by simp, rfl⟩

/-- Closed witness for C4: on a concrete store the url-conflicting post is
refreshed in place. -/
theorem write_url_conflict_refresh_witness :
    (Write storeUrl 30 1 (Fact.post postW)).1.posts
        = storeUrl.posts.map (fun q => if q.url == postW.originalURL then
            { q with
              title := postW.title
              author := postW.author
              body := compressText postW.body
              contentHash := postW.ContentHash }
          else q) ∧
    (Write storeUrl 30 1 (Fact.post postW)).1.posts.length = storeUrl.posts.length ∧
    (Write storeUrl 30 1 (Fact.post postW)).2 = Except.ok () :=
  write_url_conflict_refresh storeUrl 30 1 postW (by decide) (by decide) (by decide)

/-- Claim C5: `Write` rejects any fact that is not a Post with an
unsupported-fact error, before starting a transaction, leaving the store
unchanged. -/
theorem write_rejects_non_post (st : Store) (now : Int) (sid : Nat) (d : String) :
    Write st now sid (Fact.other d)
      = (st, Except.error "unable to write non *hydrocarbon.Post struct") := rfl

/-- Claim C10: `Write` deduplicates by content hash globally: a post of a
different feed already carrying the fact's hash makes the write a successful
no-op. -/
theorem write_global_dedup (st : Store) (now : Int) (sc : ScrapeRow) (q : PostRow)
    (p : Post) (_hsc : sc ∈ st.scrapes) (hq : q ∈ st.posts)
    (hh : q.contentHash = p.ContentHash) (_hdiff : sc.feedId ≠ q.feedId) :
    Write st now sc.id (Fact.post p) = (st, Except.ok ()) :=
  write_skips_when_hash_present st now sc.id p ⟨q, hq, hh⟩

/-- Closed witness for C10: the scrape targets feed 1, the hash-matching post
belongs to feed 2, and the write is still skipped. -/
theorem write_global_dedup_witness :
    Write storeDedup 40 scrapeW.id (Fact.post postW) = (storeDedup, Except.ok ()) :=
  write_global_dedup storeDedup 40 scrapeW postRowOther postW (by decide) (by decide)
    rfl (by decide)

/-- Helper: a conflicting `(plugin, scheduled_start_at, config)` key makes the
schedule insert a no-op. -/
theorem insertScheduleRow_skip (st : Store) (sr : ScheduleRequest) (s : ScrapeSchedule)
    (h : st.scrapes.any (fun r => r.plugin == sr.plugin
      && r.scheduledStartAt == s.scheduledStartAt && r.config == s.config) = true) :
    insertScheduleRow sr s st = st := by
  unfold insertScheduleRow
  rw [if_pos h]

/-- Helper: with no conflicting key the schedule insert appends one fresh
WAITING row. -/
theorem insertScheduleRow_insert (st : Store) (sr : ScheduleRequest) (s : ScrapeSchedule)
    (h : st.scrapes.any (fun r => r.plugin == sr.plugin
      && r.scheduledStartAt == s.scheduledStartAt && r.config == s.config) = false) :
    insertScheduleRow sr s st
      = { st with
          scrapes := st.scrapes ++ [{
            id := st.nextScrapeId
            feedId := sr.feedId
            plugin := sr.plugin
            config := s.config
            scheduledStartAt := s.scheduledStartAt
            startedAt := none
            endedAt := none
            state := ScrapeState.waiting
            errors := []
            totalDatums := 0
            totalRetries := 0
            totalTasks := 0 }]
          nextScrapeId := st.nextScrapeId + 1 } := by
  unfold insertScheduleRow
  rw [if_neg (by simp [h])]

/-- Claim C6: `InsertSchedule` is idempotent: with no pre-existing row on the
`(plugin, scheduled_start_at, config)` key, inserting the same schedule twice
adds exactly one new WAITING scrape row, the duplicate being skipped. -/
theorem insertSchedule_idempotent (st : Store) (sr : ScheduleRequest) (s : ScrapeSchedule)
    (hfresh : st.scrapes.any (fun r => r.plugin == sr.plugin
      && r.scheduledStartAt == s.scheduledStartAt && r.config == s.config) = false) :
    InsertSchedule (InsertSchedule st sr [s]) sr [s] = InsertSchedule st sr [s] ∧
    ∃ row, (InsertSchedule st sr [s]).scrapes = st.scrapes ++ [row] ∧
      row.state = ScrapeState.waiting ∧ row.feedId = sr.feedId ∧
      row.plugin = sr.plugin ∧ row.scheduledStartAt = s.scheduledStartAt ∧
      row.config = s.config := by
  constructor
  · show insertScheduleRow sr s (insertScheduleRow sr s st) = insertScheduleRow sr s st
    rw [insertScheduleRow_insert st sr s hfresh]
    refine insertScheduleRow_skip _ sr s ?_
    show (st.scrapes ++ [_]).any _ = true
    rw [List.any_append]
    simp
  · refine ⟨{
      id := st.nextScrapeId
      feedId := sr.feedId
      plugin := sr.plugin
      config := s.config
      scheduledStartAt := s.scheduledStartAt
      startedAt := none
      endedAt := none
      state := ScrapeState.waiting
      errors := []
      totalDatums := 0
      totalRetries := 0
      totalTasks := 0 }, ?_, rfl, rfl, rfl, rfl, rfl⟩
    show (insertScheduleRow sr s st).scrapes = _
    rw [insertScheduleRow_insert st sr s hfresh]

/-- Closed witness for C6: the double insert of a concrete schedule equals the
single insert, which appends one WAITING row. -/
theorem insertSchedule_idempotent_witness :
    InsertSchedule (InsertSchedule storeW schedReqW [schedW]) schedReqW [schedW]
        = InsertSchedule storeW schedReqW [schedW] ∧
    ∃ row, (InsertSchedule storeW schedReqW [schedW]).scrapes
        = storeW.scrapes ++ [row] ∧
      row.state = ScrapeState.waiting ∧ row.feedId = schedReqW.feedId ∧
      row.plugin = schedReqW.plugin ∧ row.scheduledStartAt = schedW.scheduledStartAt ∧
      row.config = schedW.config :=
  insertSchedule_idempotent storeW schedReqW schedW (by decide)

/-- Membership is preserved by descending insertion. -/
theorem mem_insertByDesc {α : Type} (key : α → Int) (x a : α) (l : List α) :
    a ∈ insertByDesc key x l ↔ a = x ∨ a ∈ l := by
  induction l with
  | nil => simp [insertByDesc]
  | cons y ys ih =>
    unfold insertByDesc
    split
    · simp
    · simp only [List.mem_cons, ih]
      tauto

/-- Membership is preserved by the descending sort. -/
theorem mem_sortByDesc {α : Type} (key : α → Int) (a : α) (l : List α) :
    a ∈ sortByDesc key l ↔ a ∈ l := by
  induction l with
  | nil => simp [sortByDesc]
  | cons x xs ih => simp [sortByDesc, mem_insertByDesc, ih]

/-- Descending insertion adds exactly one element. -/
theorem length_insertByDesc {α : Type} (key : α → Int) (x : α) (l : List α) :
    (insertByDesc key x l).length = l.length + 1 := by
  induction l with
  | nil => rfl
  | cons y ys ih =>
    unfold insertByDesc
    split
    · rfl
    · simp [ih]

/-- The descending sort preserves length. -/
theorem length_sortByDesc {α : Type} (key : α → Int) (l : List α) :
    (sortByDesc key l).length = l.length := by
  induction l with
  | nil => rfl
  | cons x xs ih => simp [sortByDesc, length_insertByDesc, ih]

/-- The scrape component of the joined rows ranges exactly over the recent
scrapes. -/
theorem mem_lateralRows_fst (sc : List ScrapeRow) (ps : List PostRow) (x : ScrapeRow) :
    x ∈ (lateralRows sc ps).map Prod.fst ↔ x ∈ sc := by
  unfold lateralRows
  split
  · simp [List.map_map, Function.comp]
  · next hemp =>
    have hps : ps ≠ [] := fun h => hemp (by simp [h])
    constructor
    · intro hx
      obtain ⟨pair, hpair, hfst⟩ := List.mem_map.mp hx
      obtain ⟨s, hs, hmem⟩ := List.mem_flatMap.mp hpair
      obtain ⟨p, _, rfl⟩ := List.mem_map.mp hmem
      rw [← hfst]
      exact hs
    · intro hx
      obtain ⟨p, hp⟩ := List.exists_mem_of_ne_nil ps hps
      exact List.mem_map.mpr ⟨(x, some p),
        List.mem_flatMap.mpr ⟨x, hx, List.mem_map.mpr ⟨p, hp, rfl⟩⟩, rfl⟩

/-- The non-null post components of the joined rows range exactly over the
recent posts, provided the feed has at least one scrape row. -/
theorem mem_lateralRows_snd (sc : List ScrapeRow) (ps : List PostRow)
    (hsc : sc ≠ []) (p : PostRow) :
    p ∈ (lateralRows sc ps).filterMap Prod.snd ↔ p ∈ ps := by
  unfold lateralRows
  split
  · next hemp =>
    have hps : ps = [] := by simpa [List.isEmpty_iff] using hemp
    subst hps
    simp [List.filterMap_map, Function.comp]
  · constructor
    · intro hx
      obtain ⟨pair, hpair, hsnd⟩ := List.mem_filterMap.mp hx
      obtain ⟨s, _, hmem⟩ := List.mem_flatMap.mp hpair
      obtain ⟨q, hq, rfl⟩ := List.mem_map.mp hmem
      obtain rfl : q = p := by simpa using hsnd
      exact hq
    · intro hx
      obtain ⟨s, hs⟩ := List.exists_mem_of_ne_nil sc hsc
      exact List.mem_filterMap.mpr ⟨(s, some p),
        List.mem_flatMap.mpr ⟨s, hs, List.mem_map.mpr ⟨p, hx, rfl⟩⟩, rfl⟩

/-- A feed with at least one scrape row has a nonempty recent-scrapes list. -/
theorem recentScrapes_ne_nil (st : Store) (fid : Nat)
    (h : ∃ s ∈ st.scrapes, (s.feedId == fid) = true) :
    recentScrapes st fid ≠ [] := by
  obtain ⟨s, hs, hf⟩ := h
  have hmem : s ∈ st.scrapes.filter (fun s => s.feedId == fid) :=
    List.mem_filter.mpr ⟨hs, hf⟩
  intro hnil
  unfold recentScrapes at hnil
  have hlen := congrArg List.length hnil
  rw [List.length_take, length_sortByDesc] at hlen
  simp only [List.length_nil] at hlen
  have hpos : 0 < (st.scrapes.filter (fun s => s.feedId == fid)).length :=
    List.length_pos.mpr (List.ne_nil_of_mem hmem)
  omega

/-- Claim C7 (counterexample to the claim as stated): with two ended scrapes
and one post on feed 1, the returned request does not pair the feed with its
list of most recent posts: the lateral join repeats the post once per scrape
row, so the aggregate holds it twice. -/
theorem findMissingSchedules_counterexample :
    ¬ ∀ r ∈ FindMissingSchedules storeC7 10,
        r.latestScrapes = recentScrapes storeC7 r.feedId ∧
        r.latestDatums = recentPosts storeC7 r.feedId := by decide

/-- Claim C7 (amended): every request FindMissingSchedules returns (at most
`limit` of them) is for a feed with no WAITING scrape and at least one scrape
row; its scrape and post lists contain exactly the feed's ten most recent
scrapes and posts as members (the lateral join may repeat them), and a feed
with zero posts yields an empty post list. -/
theorem findMissingSchedules_spec (st : Store) (limit : Nat) :
    (FindMissingSchedules st limit).length ≤ limit ∧
    ∀ r ∈ FindMissingSchedules st limit,
      (∀ s ∈ st.scrapes, s.feedId = r.feedId → s.state ≠ ScrapeState.waiting) ∧
      (∃ s ∈ st.scrapes, s.feedId = r.feedId) ∧
      (∀ s, s ∈ r.latestScrapes ↔ s ∈ recentScrapes st r.feedId) ∧
      (∀ p, p ∈ r.latestDatums ↔ p ∈ recentPosts st r.feedId) := by
  constructor
  · simp only [FindMissingSchedules, List.length_map]
    exact List.length_take_le _ _
  · intro r hr
    simp only [FindMissingSchedules, List.mem_map] at hr
    obtain ⟨f, hf, rfl⟩ := hr
    have hfil := List.mem_of_mem_take hf
    rw [List.mem_filter] at hfil
    obtain ⟨hfeeds, hcond⟩ := hfil
    rw [Bool.and_eq_true, Bool.not_eq_true'] at hcond
    obtain ⟨hnw, hhas⟩ := hcond
    refine ⟨?_, ?_, ?_, ?_⟩
    · intro s hs hfid hstate
      have hfalse := List.any_eq_false.mp hnw s hs
      apply hfalse
      have hfid2 : s.feedId = f.id := hfid
      simp [hfid2, hstate]
    · obtain ⟨s, hs, hf2⟩ := List.any_eq_true.mp hhas
      exact ⟨s, hs, by simpa using hf2⟩
    · intro s
      show s ∈ sortByDesc (fun s => s.scheduledStartAt)
          ((lateralRows (recentScrapes st f.id) (recentPosts st f.id)).map Prod.fst)
        ↔ s ∈ recentScrapes st f.id
      rw [mem_sortByDesc, mem_lateralRows_fst]
    · intro p
      show p ∈ sortByDesc (fun p => p.createdAt)
          ((lateralRows (recentScrapes st f.id) (recentPosts st f.id)).filterMap Prod.snd)
        ↔ p ∈ recentPosts st f.id
      rw [mem_sortByDesc, mem_lateralRows_snd]
      exact recentScrapes_ne_nil st f.id (List.any_eq_true.mp hhas)

/-- Closed witness for the amended C7: on `storeC7` the returned request
satisfies every clause of the amended claim. -/
theorem findMissingSchedules_spec_witness :
    (∀ s ∈ storeC7.scrapes, s.feedId = reqC7.feedId → s.state ≠ ScrapeState.waiting) ∧
    (∃ s ∈ storeC7.scrapes, s.feedId = reqC7.feedId) ∧
    (∀ s, s ∈ reqC7.latestScrapes ↔ s ∈ recentScrapes storeC7 reqC7.feedId) ∧
    (∀ p, p ∈ reqC7.latestDatums ↔ p ∈ recentPosts storeC7 reqC7.feedId) :=
  (findMissingSchedules_spec storeC7 10).2 reqC7 (by decide)

/-- Helper: a failure of the AddFeed loop comes either from resolution finding
no candidate plugin or from a ConfigCreator failure at the blacklist bound,
provided the fuel dominates the remaining blacklist capacity. -/
theorem addFeedLoop_failed_cases (registry : List Plugin)
    (fex : String → String → Bool) (url : String) :
    ∀ fuel blacklist, blacklist.length + fuel = maxFailedResolutions + 1 →
      blacklist.length ≤ maxFailedResolutions →
      ∀ e, addFeedLoop registry fex url blacklist fuel = AddFeedResult.failed e →
      (∃ bl, pluginForEntrypoint registry url bl = none ∧ e = AddFeedError.noPlugin) ∨
      (∃ bl p m, bl.length = maxFailedResolutions ∧
        pluginForEntrypoint registry url bl = some p ∧
        p.configCreator url = Except.error m ∧ e = AddFeedError.creatorFailed m) := by
  intro fuel
  induction fuel with
  | zero =>
    intro bl hsum hle e _
    exfalso
    omega
  | succ n ih =>
    intro bl hsum hle e heq
    unfold addFeedLoop at heq
    split at heq
    · next hres =>
      injection heq with h
      subst h
      exact Or.inl ⟨bl, hres, rfl⟩
    · next p hres =>
      split at heq
      · simp at heq
      · next hfex =>
        split at heq
        · next m hcc =>
          split at heq
          · next hlen =>
            injection heq with h
            subst h
            exact Or.inr ⟨bl, p, m, hlen, hres, hcc, rfl⟩
          · next hlen =>
            refine ih (bl ++ [p.name]) ?_ ?_ e heq
            · simp only [List.length_append, List.length_cons, List.length_nil]
              omega
            · simp only [List.length_append, List.length_cons, List.length_nil]
              omega
        · next title snd hcc =>
          simp at heq

/-- Claim C8: when the resolved plugin's ConfigCreator fails, AddFeed appends
that plugin's name to the blacklist and retries resolution of the same URL
excluding blacklisted plugins; and AddFeed fails only when resolution finds no
non-blacklisted accepting plugin, or when the config creator still fails with
the blacklist grown to `maxFailedResolutions`. -/
theorem addFeed_blacklist_retry (registry : List Plugin)
    (fex : String → String → Bool) (url : String) :
    (∀ blacklist fuel p m, pluginForEntrypoint registry url blacklist = some p →
      fex p.name url = false → p.configCreator url = Except.error m →
      blacklist.length ≠ maxFailedResolutions →
      addFeedLoop registry fex url blacklist (fuel + 1)
        = addFeedLoop registry fex url (blacklist ++ [p.name]) fuel) ∧
    (∀ e, AddFeed registry fex url = AddFeedResult.failed e →
      (∃ bl, pluginForEntrypoint registry url bl = none ∧ e = AddFeedError.noPlugin) ∨
      (∃ bl p m, bl.length = maxFailedResolutions ∧
        pluginForEntrypoint registry url bl = some p ∧
        p.configCreator url = Except.error m ∧ e = AddFeedError.creatorFailed m)) := by
  constructor
  · intro bl fuel p m hres hfex hcc hlen
    conv_lhs => rw [addFeedLoop]
    simp [hres, hfex, hcc, hlen]
  · intro e heq
    exact addFeedLoop_failed_cases registry fex url (maxFailedResolutions + 1) []
      (by simp) (by simp) e heq

/-- Closed witness for C8: with a failing first plugin the loop blacklists it
and retries; a registry of only failing plugins makes AddFeed fail, and the
characterization applies. -/
theorem addFeed_blacklist_retry_witness :
    (addFeedLoop registryW fexNone "https://x.com" [] 9
        = addFeedLoop registryW fexNone "https://x.com" ["bad"] 8) ∧
    ((∃ bl, pluginForEntrypoint [pluginBad] "https://x.com" bl = none ∧
        AddFeedError.noPlugin = AddFeedError.noPlugin) ∨
      (∃ bl p m, bl.length = maxFailedResolutions ∧
        pluginForEntrypoint [pluginBad] "https://x.com" bl = some p ∧
        p.configCreator "https://x.com" = Except.error m ∧
        AddFeedError.noPlugin = AddFeedError.creatorFailed m)) :=
  ⟨(addFeed_blacklist_retry registryW fexNone "https://x.com").1 [] 8 pluginBad
      "cfg fail" rfl rfl rfl (by decide),
   (addFeed_blacklist_retry [pluginBad] fexNone "https://x.com").2
      AddFeedError.noPlugin rfl⟩

/-- Claim C9: `CheckIfFeedExists` is not read-only: on a (url, plugin) hit it
additionally appends a feed_folders row linking the found feed to the supplied
folder for the session's user, returning the feed and found=true; with no
matching feed it returns found=false and the store is unchanged. -/
theorem checkIfFeedExists_spec (st : Store) (key : String) (folderId : Nat)
    (plugin url : String) :
    (∀ f sess, st.feeds.find? (fun f => f.url == url && f.plugin == plugin) = some f →
      st.sessions.find? (fun s => s.key == key) = some sess →
      CheckIfFeedExists st key folderId plugin url
        = ({ st with feedFolders := st.feedFolders ++
              [{ userId := sess.userId, folderId := folderId, feedId := f.id }] },
          Except.ok (some f)) ∧ f.url = url ∧ f.plugin = plugin) ∧
    (st.feeds.find? (fun f => f.url == url && f.plugin == plugin) = none →
      CheckIfFeedExists st key folderId plugin url = (st, Except.ok none)) := by
  constructor
  · intro f sess hf hs
    refine ⟨?_, ?_⟩
    · unfold CheckIfFeedExists
      rw [hf, hs]
    · have hprops := List.find?_some hf
      simp only [Bool.and_eq_true, beq_iff_eq] at hprops
      exact hprops
  · intro hnone
    unfold CheckIfFeedExists
    rw [hnone]

/-- Closed witness for C9: on a concrete store, the hit case links the feed
into folder 4 for user 3, and a plugin mismatch leaves the store unchanged. -/
theorem checkIfFeedExists_spec_witness :
    ((CheckIfFeedExists storeC9 "k" 4 "fictionpress" "https://e.com"
        = ({ storeC9 with feedFolders := storeC9.feedFolders ++
              [{ userId := sessEx.userId, folderId := 4, feedId := feedEx.id }] },
          Except.ok (some feedEx)) ∧ feedEx.url = "https://e.com" ∧
          feedEx.plugin = "fictionpress") ∧
      CheckIfFeedExists storeC9 "k" 4 "otherplugin" "https://e.com"
        = (storeC9, Except.ok none)) :=
  ⟨(checkIfFeedExists_spec storeC9 "k" 4 "fictionpress" "https://e.com").1
      feedEx sessEx rfl rfl,
   (checkIfFeedExists_spec storeC9 "k" 4 "otherplugin" "https://e.com").2 rfl⟩

end Hydrocarbon
